import Mathlib

/-!
Verification of the onion-checker program (src/checker.py) against its
specification.  The Python source is shallowly embedded: pure helpers become
Lean functions on `List Char`-backed strings, Python exceptions become
`Except`, measured durations become rationals, and the `ThreadPoolExecutor`
dispatch in `main` becomes a small transition system over every interleaving
of probe starts and completions.
-/

unseal Rat.add Rat.sub Rat.mul Rat.inv

namespace OnionChecker

/-- Characters stripped by Python's `str.strip()` (ASCII whitespace). -/
def pyIsSpace (c : Char) : Bool :=
  c == ' ' || c == '\t' || c == '\n' || c == '\r' || c == '\x0b' || c == '\x0c'

/-- Python `s.strip()`: remove leading and trailing whitespace. -/
def pyStrip (s : String) : String :=
  ⟨((s.data.dropWhile pyIsSpace).reverse.dropWhile pyIsSpace).reverse⟩

/-- Python `s.lower()` (ASCII case folding, which covers the inputs here). -/
def pyLower (s : String) : String :=
  ⟨s.data.map Char.toLower⟩

/-- Python `s.startswith(p)`. -/
def strStartsWith (s p : String) : Bool :=
  p.data.isPrefixOf s.data

/-- Python `s.endswith(p)`. -/
def strEndsWith (s p : String) : Bool :=
  p.data.isSuffixOf s.data

/-- The part of `l` after the last occurrence of `c` (all of `l` when `c` is
absent): Python `l.rpartition(c)[2]`. -/
def afterLastChar (c : Char) (l : List Char) : List Char :=
  (l.reverse.takeWhile (fun a => a != c)).reverse

/-- Python `urlparse(r).hostname` for a string beginning with `http://` or
`https://`: the netloc is the segment after the scheme up to the first of
`/`, `?`, `#`; the hostname drops userinfo (up to the last `@`), takes a
bracketed IPv6 literal if present and otherwise stops at the port `:`, is
lower-cased, and is `None` when empty. -/
def urlparse_hostname (r : String) : Option String :=
  let rest := if strStartsWith r "http://" then r.drop 7 else r.drop 8
  let netloc := rest.data.takeWhile (fun c => c != '/' && c != '?' && c != '#')
  let hostinfo := afterLastChar '@' netloc
  let hostname :=
    if hostinfo.contains '[' then
      ((hostinfo.dropWhile (fun c => c != '[')).drop 1).takeWhile (fun c => c != ']')
    else
      hostinfo.takeWhile (fun c => c != ':')
  if hostname.isEmpty then none else some (pyLower ⟨hostname⟩)

/-- The Target Normalizer `extract_clean_onion` from src/checker.py, line by
line: strip and lower-case, return `None` on empty, take the URL hostname for
scheme-prefixed input and the segment before the first `/` otherwise
(`raw.split("/")[0]`), and accept only a non-empty hostname ending in
`.onion`. -/
def extract_clean_onion (raw : String) : Option String :=
  let r := pyLower (pyStrip raw)
  if r = "" then none
  else
    let hostname : Option String :=
      if strStartsWith r "http://" || strStartsWith r "https://" then
        urlparse_hostname r
      else
        some ⟨r.data.takeWhile (fun c => c != '/')⟩
    match hostname with
    | some h => if h != "" && strEndsWith h ".onion" then some h else none
    | none => none

/-- The cleaning step `raw.strip().lower()` shared by the spec's description
of the Normalizer. -/
def cleaned (raw : String) : String := pyLower (pyStrip raw)

/-- Whether the cleaned input has a URL scheme, per the source's test. -/
def has_scheme (r : String) : Bool :=
  strStartsWith r "http://" || strStartsWith r "https://"

/-- The spec's description of the hostname-extraction branch: URL parsing for
scheme-prefixed input, otherwise the substring before the first path
separator. -/
def extracted_hostname (r : String) : Option String :=
  if has_scheme r then urlparse_hostname r
  else some ⟨r.data.takeWhile (fun c => c != '/')⟩

/-- The spec's acceptance gate: keep a hostname only if it is non-empty and
ends with the required `.onion` suffix. -/
def gate_onion (ho : Option String) : Option String :=
  match ho with
  | some h => if h != "" && strEndsWith h ".onion" then some h else none
  | none => none

deriving instance DecidableEq for Except

/-- The floor of a rational, computed so that it evaluates in the kernel
(the denominator is positive, so flooring division of the numerator by the
denominator is the floor). -/
def ratFloor (q : ℚ) : ℤ := q.num.fdiv q.den

/-- Python's bankers rounding (`round`), documented as round-half-to-even,
on a rational. -/
def pyRoundHalfEven (q : ℚ) : ℤ :=
  let f : ℤ := ratFloor q
  let frac : ℚ := q - f
  if frac < 1/2 then f
  else if 1/2 < frac then f + 1
  else if f % 2 = 0 then f else f + 1

/-- Python `round(x, 2)`: round to two decimal places. -/
def round2 (q : ℚ) : ℚ := (pyRoundHalfEven (q * 100) : ℚ) / 100

/-- The per-target result dictionary built by `check_onion`:
`{"url": ..., "status": ..., "response_time": ...}` — exactly these three
fields. -/
structure ProbeResult where
  url : String
  status : String
  response_time : ℚ
  deriving DecidableEq, Repr

/-- A Python exception value.  `isException` records whether its class
derives from `Exception`: `except Exception` catches exactly those (a
`KeyboardInterrupt`, say, is a `BaseException` and passes through).  Every
fault `requests.get` signals — timeout, connection refusal, resolution
failure, protocol error — derives from `Exception`. -/
structure PyExn where
  name : String
  isException : Bool
  deriving DecidableEq, Repr

/-- What the network call `requests.get(full_url, proxies=..., timeout=...)`
does for one probe: either a response with a status code arrives, or an
exception is raised (timeout, connection refused, proxy unreachable,
resolution failure, protocol error, ...). -/
inductive NetEvent where
  | response (code : ℕ)
  | exn (e : PyExn)
  deriving DecidableEq, Repr

/-- The Probe Executor `check_onion` from src/checker.py.  `elapsedRaw` is
the measured `time.perf_counter() - start` duration at the moment the call
returns or raises.  A 200 response yields `ONLINE`, any other response
yields `ERROR <code>`, and a raised exception deriving from `Exception` is
caught by the `except Exception` handler and yields `OFFLINE`; an exception
not deriving from `Exception` propagates (`Except.error`).  The duration is
always rounded to two decimal places. -/
def check_onion (url : String) (ev : NetEvent) (elapsedRaw : ℚ) :
    Except PyExn ProbeResult :=
  match ev with
  | .response code =>
    let duration := round2 elapsedRaw
    if code = 200 then .ok ⟨url, "ONLINE", duration⟩
    else .ok ⟨url, "ERROR " ++ toString code, duration⟩
  | .exn e =>
    if e.isException then .ok ⟨url, "OFFLINE", round2 elapsedRaw⟩
    else .error e

/-- The HTTP success class of status codes (2xx).  This is the reading of
the spec's phrase "a success status code (e.g. 200)". -/
def is_success_status (code : ℕ) : Bool :=
  200 ≤ code && code < 300

/-- Python `a / b` on numbers: raises `ZeroDivisionError` when `b = 0`. -/
def pyDiv (a b : ℚ) : Except String ℚ :=
  if b = 0 then .error "ZeroDivisionError" else .ok (a / b)

/-- The summary computed at the end of `main`:
`round(sum(r["response_time"] for r in results) / len(results), 2)`.
The division happens before the rounding, so an empty result list raises
`ZeroDivisionError`. -/
def average_response_time (results : List ProbeResult) : Except String ℚ :=
  (pyDiv (results.map ProbeResult.response_time).sum (results.length : ℚ)).map round2

/-- Ingestion from a text file (`load_onions_from_txt`): normalize every
line, keep the truthy results (`None` and the empty string are falsy), and
collapse them into a set.  The set comprehension is modelled as `dedup`; the
claims proved about it are order-independent, so the arbitrary iteration
order of a Python `set` is immaterial. -/
def load_onions_from_txt (lines : List String) : List String :=
  ((lines.filterMap extract_clean_onion).filter (fun u => u != "")).dedup

/-- Ingestion from a CSV file (`load_onions_from_csv`): the nested loop over
rows and cells is the flattened cell list, each normalized and added to a
set when truthy. -/
def load_onions_from_csv (rows : List (List String)) : List String :=
  ((rows.flatten.filterMap extract_clean_onion).filter (fun u => u != "")).dedup

/-- Ingestion from a SQLite table (`load_onions_from_sqlite`): the values of
the selected column, each normalized and added to a set when truthy. -/
def load_onions_from_sqlite (column_values : List String) : List String :=
  ((column_values.filterMap extract_clean_onion).filter (fun u => u != "")).dedup

/-- A snapshot of `main`'s ThreadPoolExecutor run: targets whose probe has
not started, targets whose probe is in flight, and the results appended so
far by the `as_completed` loop. -/
structure SchedState where
  pending : List String
  running : List String
  done : List ProbeResult
  deriving DecidableEq, Repr

/-- One scheduling event of the worker pool, for a fixed probe function `f`
and pool size `maxWorkers`.  A pending probe may start only while fewer than
`maxWorkers` probes are in flight (the pool has exactly `maxWorkers` worker
threads, each running at most one task); any in-flight probe may finish, and
its result is then appended.  Every interleaving of these events is a
possible execution. -/
inductive SchedStep (f : String → ProbeResult) (maxWorkers : ℕ) :
    SchedState → SchedState → Prop
  | start (t : String) (rest running : List String) (done : List ProbeResult) :
      running.length < maxWorkers →
      SchedStep f maxWorkers ⟨t :: rest, running, done⟩ ⟨rest, t :: running, done⟩
  | finish (pending r1 r2 : List String) (t : String) (done : List ProbeResult) :
      SchedStep f maxWorkers ⟨pending, r1 ++ t :: r2, done⟩
        ⟨pending, r1 ++ r2, f t :: done⟩

/-- The initial state: every submitted target pending, nothing dispatched. -/
def SchedInit (targets : List String) : SchedState := ⟨targets, [], []⟩

/-- The states a run over `targets` can reach. -/
def SchedReach (f : String → ProbeResult) (maxWorkers : ℕ)
    (targets : List String) (s : SchedState) : Prop :=
  Relation.ReflTransGen (SchedStep f maxWorkers) (SchedInit targets) s

/-- The spec's end-to-end scenario: the submitted target set. -/
def scenario_targets : List String := ["abc.onion", "xyz.onion"]

/-- The scenario's network behaviour: `abc.onion` answers 200, `xyz.onion`
times out (`requests` raises a timeout error, which derives from
`Exception`). -/
def scenario_event (t : String) : NetEvent :=
  if t = "abc.onion" then .response 200 else .exn ⟨"ConnectTimeout", true⟩

/-- The scenario's measured durations: success after 0.5 s, timeout at the
10 s `per_probe_timeout`. -/
def scenario_elapsed (t : String) : ℚ :=
  if t = "abc.onion" then 1/2 else 10

/-- The probe function of the scenario.  Both scenario events are handled by
`check_onion` without propagation, so the fallback row is unreachable. -/
def scenario_probe (t : String) : ProbeResult :=
  match check_onion t (scenario_event t) (scenario_elapsed t) with
  | .ok r => r
  | .error _ => ⟨t, "unreachable", 0⟩

/-!
Helper lemmas, shared by several of the claim theorems below.
-/

/-- The Normalizer is the acceptance gate applied to the hostname extracted
from the cleaned (stripped, lower-cased) input.  The source's early return
on an empty cleaned string is absorbed by the gate, which rejects the empty
hostname anyway. -/
theorem extract_clean_onion_eq_gate (raw : String) :
    extract_clean_onion raw = gate_onion (extracted_hostname (cleaned raw)) := by
  unfold extract_clean_onion gate_onion extracted_hostname has_scheme cleaned
  by_cases hr : pyLower (pyStrip raw) = ""
  · rw [if_pos hr, hr]
    simp [urlparse_hostname, strStartsWith, pyStrip, pyIsSpace, List.isPrefixOf]
  · rw [if_neg hr]

/-- Any accepted Normalizer output is non-empty and carries the `.onion`
suffix. -/
theorem extract_clean_onion_some_shape (raw h : String)
    (hs : extract_clean_onion raw = some h) :
    h ≠ "" ∧ strEndsWith h ".onion" = true := by
  rw [extract_clean_onion_eq_gate] at hs
  unfold gate_onion at hs
  split at hs
  · split at hs
    · rename_i h0 hcond
      cases hs
      simpa [Bool.and_eq_true, bne_iff_ne] using hcond
    · cases hs
  · cases hs

/-- Claim C4: the Normalizer strips whitespace, lower-cases the input, and
extracts a hostname, accepting the result only if it is non-empty and ends
with the `.onion` suffix, and otherwise yields no target; every raw input
whose extracted hostname lacks the suffix yields no target, and gating is
case-insensitive: "FOO.onion" and "foo.onion" normalize identically (both
to the accepted target "foo.onion"). -/
theorem normalizer_suffix_gating :
    (∀ raw h, extract_clean_onion raw = some h →
      h ≠ "" ∧ strEndsWith h ".onion" = true)
    ∧ (∀ raw h, extracted_hostname (cleaned raw) = some h →
        strEndsWith h ".onion" = false → extract_clean_onion raw = none)
    ∧ extract_clean_onion "FOO.onion" = extract_clean_onion "foo.onion"
    ∧ extract_clean_onion "FOO.onion" = some "foo.onion" := by
  refine ⟨extract_clean_onion_some_shape, ?_, by decide, by decide⟩
  intro raw h hex hsuf
  rw [extract_clean_onion_eq_gate, hex]
  unfold gate_onion
  simp [hsuf]

/-- Witness for the C4 theorem at concrete inputs: "FOO.onion" is accepted
as "foo.onion", and "not-a-url" (hostname extracted but no suffix) yields
no target. -/
theorem normalizer_suffix_gating_witness :
    ("foo.onion" ≠ "" ∧ strEndsWith "foo.onion" ".onion" = true)
    ∧ extract_clean_onion "not-a-url" = none :=
  ⟨normalizer_suffix_gating.1 "FOO.onion" "foo.onion" (by decide),
   normalizer_suffix_gating.2.1 "not-a-url" "not-a-url" (by decide) (by decide)⟩

/-- Claim C5: for a cleaned input with a URL scheme the Normalizer takes
the hostname component of URL parsing, and otherwise the substring before
the first path separator `/`; the latter is the prefix of the input up to
the first `/` (it recomposes with the rest and contains no `/`). -/
theorem normalizer_hostname_branches :
    (∀ raw, has_scheme (cleaned raw) = true →
      extract_clean_onion raw = gate_onion (urlparse_hostname (cleaned raw)))
    ∧ (∀ raw, has_scheme (cleaned raw) = false →
      extract_clean_onion raw =
        gate_onion (some ⟨(cleaned raw).data.takeWhile (fun c => c != '/')⟩))
    ∧ (∀ r : String,
        r.data = r.data.takeWhile (fun c => c != '/')
                  ++ r.data.dropWhile (fun c => c != '/')
        ∧ ∀ c ∈ r.data.takeWhile (fun c => c != '/'), c ≠ '/') := by
  refine ⟨?_, ?_, ?_⟩
  · intro raw hsch
    rw [extract_clean_onion_eq_gate]
    unfold extracted_hostname
    simp [hsch]
  · intro raw hsch
    rw [extract_clean_onion_eq_gate]
    unfold extracted_hostname
    simp [hsch]
  · intro r
    refine ⟨(List.takeWhile_append_dropWhile _ _).symm, ?_⟩
    intro c hc
    have := List.mem_takeWhile_imp hc
    simpa [bne_iff_ne] using this

/-- Witness for the C5 theorem: one scheme-prefixed input, one bare input,
and the no-separator property of the extracted prefix of "a/b". -/
theorem normalizer_hostname_branches_witness :
    extract_clean_onion "http://abc.onion/page"
      = gate_onion (urlparse_hostname (cleaned "http://abc.onion/page"))
    ∧ extract_clean_onion "xyz.onion/page"
      = gate_onion (some ⟨(cleaned "xyz.onion/page").data.takeWhile (fun c => c != '/')⟩)
    ∧ ('a' : Char) ≠ '/' :=
  ⟨normalizer_hostname_branches.1 "http://abc.onion/page" (by decide),
   normalizer_hostname_branches.2.1 "xyz.onion/page" (by decide),
   (normalizer_hostname_branches.2.2 "a/b").2 'a' (by decide)⟩

/-- Counterexample to claim C2 as stated: 201 is a success-class status
code, yet a 201 response is classified as "ERROR 201", not ONLINE — only
the status code 200 exactly is treated as success. -/
theorem success_class_response_not_online :
    is_success_status 201 = true
    ∧ check_onion "abc.onion" (.response 201) 1
        = .ok ⟨"abc.onion", "ERROR 201", 1⟩
    ∧ check_onion "abc.onion" (.response 201) 1
        ≠ .ok ⟨"abc.onion", "ONLINE", 1⟩ := by decide

/-- Claim C2 (amended): a received response with status code exactly 200
maps to ONLINE; a received response with any other status code — including
other success-class codes such as 201 — maps to the remote-error status
carrying that code; any failure raised as an `Exception` maps to OFFLINE;
in every case the outcome carries the elapsed duration rounded to two
decimal places. -/
theorem check_onion_classification (url : String) (t : ℚ) :
    check_onion url (.response 200) t = .ok ⟨url, "ONLINE", round2 t⟩
    ∧ (∀ code : ℕ, code ≠ 200 →
        check_onion url (.response code) t
          = .ok ⟨url, "ERROR " ++ toString code, round2 t⟩)
    ∧ (∀ e : PyExn, e.isException = true →
        check_onion url (.exn e) t = .ok ⟨url, "OFFLINE", round2 t⟩) := by
  refine ⟨rfl, ?_, ?_⟩
  · intro code hc
    simp [check_onion, hc]
  · intro e he
    simp [check_onion, he]

/-- Witness for the amended C2 theorem at a 404 response and a timeout. -/
theorem check_onion_classification_witness :
    check_onion "a.onion" (.response 404) 3
      = .ok ⟨"a.onion", "ERROR " ++ toString 404, round2 3⟩
    ∧ check_onion "a.onion" (.exn ⟨"ReadTimeout", true⟩) 3
      = .ok ⟨"a.onion", "OFFLINE", round2 3⟩ :=
  ⟨(check_onion_classification "a.onion" 3).2.1 404 (by decide),
   (check_onion_classification "a.onion" 3).2.2 ⟨"ReadTimeout", true⟩ rfl⟩

/-- Claim C6: per-target faults are recovered locally.  Whenever the
network call returns a response or raises an exception deriving from
`Exception` — as every requests fault (timeout, connection refusal,
resolution failure, protocol error) does — `check_onion` returns an
outcome value; no such fault propagates to the caller. -/
theorem probe_faults_recovered (url : String) (ev : NetEvent) (t : ℚ)
    (hfault : ∀ e, ev = .exn e → e.isException = true) :
    (check_onion url ev t).isOk = true := by
  cases ev with
  | response code =>
    by_cases hc : code = 200 <;> simp [check_onion, hc, Except.isOk, Except.toBool]
  | exn e =>
    simp [check_onion, hfault e rfl, Except.isOk, Except.toBool]

/-- Witness for the C6 theorem: a connection failure is recovered. -/
theorem probe_faults_recovered_witness :
    (check_onion "abc.onion" (.exn ⟨"ConnectionError", true⟩) 2).isOk = true :=
  probe_faults_recovered "abc.onion" (.exn ⟨"ConnectionError", true⟩) 2
    (fun _ he => by cases he; rfl)

/-- Claim C10: every outcome returned by the Probe Executor carries the
input target unchanged in its url field, and consists of exactly the three
fields url, status and response_time. -/
theorem probe_outcome_url_unchanged (url : String) (ev : NetEvent) (t : ℚ)
    (r : ProbeResult) (h : check_onion url ev t = .ok r) :
    r.url = url ∧ r = ⟨url, r.status, r.response_time⟩ := by
  have hu : r.url = url := by
    cases ev with
    | response code =>
      simp only [check_onion] at h
      by_cases hc : code = 200
      · rw [if_pos hc] at h; cases h; rfl
      · rw [if_neg hc] at h; cases h; rfl
    | exn e =>
      simp only [check_onion] at h
      by_cases he : e.isException = true
      · rw [if_pos he] at h; cases h; rfl
      · rw [if_neg he] at h; cases h
  exact ⟨hu, by rw [← hu]⟩

/-- Witness for the C10 theorem at a 200 response. -/
theorem probe_outcome_url_unchanged_witness :
    (⟨"t.onion", "ONLINE", round2 0⟩ : ProbeResult).url = "t.onion"
    ∧ (⟨"t.onion", "ONLINE", round2 0⟩ : ProbeResult)
        = ⟨"t.onion", (⟨"t.onion", "ONLINE", round2 0⟩ : ProbeResult).status,
            (⟨"t.onion", "ONLINE", round2 0⟩ : ProbeResult).response_time⟩ :=
  probe_outcome_url_unchanged "t.onion" (.response 200) 0 _ rfl

/-- Run invariant: the targets accounted for — pending, in flight, or
finished — are exactly the submitted targets (as a permutation), and the
finished rows are the probe function's outputs for the finished targets. -/
theorem sched_invariant (f : String → ProbeResult) (maxWorkers : ℕ)
    (targets : List String) (s : SchedState)
    (h : SchedReach f maxWorkers targets s) :
    ∃ ds : List String, s.done = ds.map f
      ∧ (s.pending ++ (s.running ++ ds)).Perm targets := by
  induction h with
  | refl => exact ⟨[], rfl, by simp [SchedInit]⟩
  | tail _ hstep ih =>
    obtain ⟨ds, hdone, hperm⟩ := ih
    cases hstep with
    | start t rest running done hlt =>
      exact ⟨ds, hdone, List.Perm.trans List.perm_middle hperm⟩
    | finish pending r1 r2 t done =>
      have hd : done = ds.map f := hdone
      refine ⟨t :: ds, by simp [hd], ?_⟩
      refine List.Perm.trans (List.Perm.append_left pending ?_) hperm
      show ((r1 ++ r2) ++ (t :: ds)).Perm ((r1 ++ (t :: r2)) ++ ds)
      simp only [List.append_assoc]
      exact List.Perm.append_left r1 List.perm_middle

/-- In a completed run (nothing pending, nothing in flight) the collected
rows are a permutation of the probe outputs of the submitted targets. -/
theorem sched_terminal_perm (f : String → ProbeResult) (maxWorkers : ℕ)
    (targets : List String) (s : SchedState)
    (h : SchedReach f maxWorkers targets s)
    (hp : s.pending = []) (hr : s.running = []) :
    s.done.Perm (targets.map f) := by
  obtain ⟨ds, hdone, hperm⟩ := sched_invariant f maxWorkers targets s h
  rw [hp, hr] at hperm
  simp only [List.nil_append] at hperm
  rw [hdone]
  exact (hperm.map f)

/-- With at least one worker, every run can proceed to completion: a
terminal state collecting all outcomes is reachable. -/
theorem sched_can_finish (f : String → ProbeResult) (maxWorkers : ℕ)
    (hW : 1 ≤ maxWorkers) (pending : List String) :
    ∀ done : List ProbeResult,
      Relation.ReflTransGen (SchedStep f maxWorkers)
        ⟨pending, [], done⟩ ⟨[], [], (pending.map f).reverse ++ done⟩ := by
  induction pending with
  | nil =>
    intro done
    simp only [List.map_nil, List.reverse_nil, List.nil_append]
    exact Relation.ReflTransGen.refl
  | cons t rest ih =>
    intro done
    have s1 : SchedStep f maxWorkers ⟨t :: rest, [], done⟩ ⟨rest, [t], done⟩ :=
      SchedStep.start t rest [] done (by simpa using hW)
    have s2 : SchedStep f maxWorkers ⟨rest, [t], done⟩ ⟨rest, [], f t :: done⟩ :=
      @SchedStep.finish f maxWorkers rest [] [] t done
    have hrest := ih (f t :: done)
    have hall := Relation.ReflTransGen.head s1 (Relation.ReflTransGen.head s2 hrest)
    simpa [List.reverse_cons, List.append_assoc] using hall

/-- The summary statistic is invariant under reordering of the report. -/
theorem average_response_time_perm (l1 l2 : List ProbeResult)
    (h : l1.Perm l2) :
    average_response_time l1 = average_response_time l2 := by
  unfold average_response_time pyDiv
  rw [h.length_eq, (h.map ProbeResult.response_time).sum_eq]

/-- Claim C8: at no reachable instant of any run are more than `maxWorkers`
probes simultaneously in flight; the ceiling holds over every interleaving
of worker starts and completions. -/
theorem bounded_in_flight (f : String → ProbeResult) (maxWorkers : ℕ)
    (targets : List String) (s : SchedState)
    (h : SchedReach f maxWorkers targets s) :
    s.running.length ≤ maxWorkers := by
  induction h with
  | refl => simp [SchedInit]
  | tail _ hstep ih =>
    cases hstep with
    | start t rest running done hlt => simpa using hlt
    | finish pending r1 r2 t done =>
      simp only [List.length_append, List.length_cons] at ih ⊢
      omega

/-- Witness for the C8 theorem: the initial state of a concrete run obeys
the bound of `MAX_THREADS = 50`. -/
theorem bounded_in_flight_witness :
    (SchedInit ["abc.onion"]).running.length ≤ 50 :=
  bounded_in_flight (fun u => ⟨u, "OFFLINE", 0⟩) 50 ["abc.onion"]
    (SchedInit ["abc.onion"]) Relation.ReflTransGen.refl

/-- Claim C3: for distinct targets and a url-preserving probe function,
every completed run has exactly one outcome per target — `N` outcomes in
total, none skipped, none probed twice, in whatever completion order — and
with at least one worker a completed run is reachable. -/
theorem scheduler_exact_coverage (f : String → ProbeResult) (maxWorkers : ℕ)
    (targets : List String) (hurl : ∀ t, (f t).url = t)
    (hnodup : targets.Nodup) :
    (∀ s : SchedState, SchedReach f maxWorkers targets s →
      s.pending = [] → s.running = [] →
      s.done.length = targets.length
      ∧ ∀ t ∈ targets, s.done.countP (fun r => r.url == t) = 1)
    ∧ (1 ≤ maxWorkers → ∃ s : SchedState,
        SchedReach f maxWorkers targets s ∧ s.pending = [] ∧ s.running = []) := by
  constructor
  · intro s hreach hp hr
    have hperm := sched_terminal_perm f maxWorkers targets s hreach hp hr
    constructor
    · simpa using hperm.length_eq
    · intro t ht
      rw [hperm.countP_eq, List.countP_map]
      have hfun : ((fun r => r.url == t) ∘ f) = (fun u => u == t) := by
        funext u
        simp [Function.comp, hurl u]
      rw [hfun]
      simpa [List.count] using List.count_eq_one_of_mem hnodup ht
  · intro hW
    exact ⟨⟨[], [], (targets.map f).reverse ++ []⟩,
      sched_can_finish f maxWorkers hW targets [], rfl, rfl⟩

/-- Witness for the C3 theorem: two distinct targets, one worker. -/
theorem scheduler_exact_coverage_witness :
    (∀ s : SchedState,
      SchedReach (fun u => ⟨u, "OFFLINE", 0⟩) 1 ["a.onion", "b.onion"] s →
      s.pending = [] → s.running = [] →
      s.done.length = (["a.onion", "b.onion"] : List String).length
      ∧ ∀ t ∈ (["a.onion", "b.onion"] : List String),
          s.done.countP (fun r => r.url == t) = 1)
    ∧ (1 ≤ 1 → ∃ s : SchedState,
        SchedReach (fun u => ⟨u, "OFFLINE", 0⟩) 1 ["a.onion", "b.onion"] s
        ∧ s.pending = [] ∧ s.running = []) :=
  scheduler_exact_coverage (fun u => ⟨u, "OFFLINE", 0⟩) 1 ["a.onion", "b.onion"]
    (fun _ => rfl) (by decide)

/-- Claim C7: for every completed run the report's mean equals the
arithmetic mean of the outcome durations of all targets, rounded to two
decimals, independent of completion order; in the spec's end-to-end
scenario the report holds exactly the two expected outcomes and the mean
is 5.25. -/
theorem report_mean :
    (∀ (f : String → ProbeResult) (maxWorkers : ℕ) (targets : List String)
        (s : SchedState), SchedReach f maxWorkers targets s →
      s.pending = [] → s.running = [] → targets ≠ [] →
      average_response_time s.done
        = .ok (round2 (((targets.map f).map ProbeResult.response_time).sum
            / (targets.length : ℚ))))
    ∧ (∀ s : SchedState, SchedReach scenario_probe 50 scenario_targets s →
        s.pending = [] → s.running = [] →
        s.done.Perm [⟨"abc.onion", "ONLINE", 1/2⟩, ⟨"xyz.onion", "OFFLINE", 10⟩]
        ∧ average_response_time s.done = .ok (21/4)) := by
  constructor
  · intro f maxWorkers targets s hreach hp hr hne
    rw [average_response_time_perm _ _
      (sched_terminal_perm f maxWorkers targets s hreach hp hr)]
    unfold average_response_time pyDiv
    have h0 : ((targets.map f).length : ℚ) ≠ 0 := by
      simpa using fun h => hne (List.length_eq_zero.mp h)
    rw [if_neg h0]
    simp [Except.map]
  · intro s hreach hp hr
    have hperm := sched_terminal_perm scenario_probe 50 scenario_targets s hreach hp hr
    have hmap : scenario_targets.map scenario_probe
        = [⟨"abc.onion", "ONLINE", 1/2⟩, ⟨"xyz.onion", "OFFLINE", 10⟩] := by decide
    rw [hmap] at hperm
    refine ⟨hperm, ?_⟩
    rw [average_response_time_perm _ _ hperm]
    decide

/-- Witness for the C7 theorem: the scenario run completed by a concrete
interleaving has the two expected outcomes and mean 5.25. -/
theorem report_mean_witness :
    ((⟨[], [], (scenario_targets.map scenario_probe).reverse ++ []⟩ :
        SchedState).done).Perm
      [⟨"abc.onion", "ONLINE", 1/2⟩, ⟨"xyz.onion", "OFFLINE", 10⟩]
    ∧ average_response_time
        (⟨[], [], (scenario_targets.map scenario_probe).reverse ++ []⟩ :
          SchedState).done
      = .ok (21/4) :=
  report_mean.2 ⟨[], [], (scenario_targets.map scenario_probe).reverse ++ []⟩
    (sched_can_finish scenario_probe 50 (by decide) scenario_targets []) rfl rfl

/-- Claim C1 records a divergence of the code from the spec: for the empty
submitted target set every completed run holds the empty report, and the
average computation in `main` then divides by zero — the code raises
`ZeroDivisionError` instead of reporting an explicit "no data" mean. -/
theorem empty_run_zero_division :
    (∀ (f : String → ProbeResult) (maxWorkers : ℕ) (s : SchedState),
      SchedReach f maxWorkers [] s → s.pending = [] → s.running = [] →
      s.done = [])
    ∧ average_response_time [] = .error "ZeroDivisionError" := by
  constructor
  · intro f maxWorkers s hreach hp hr
    have hperm := sched_terminal_perm f maxWorkers [] s hreach hp hr
    simp only [List.map_nil] at hperm
    exact hperm.eq_nil
  · decide

/-- Witness for the C1 theorem: the initial state of the empty run is
already terminal with an empty report. -/
theorem empty_run_zero_division_witness :
    (SchedInit []).done = [] :=
  empty_run_zero_division.1 (fun u => ⟨u, "OFFLINE", 0⟩) 50 (SchedInit [])
    Relation.ReflTransGen.refl rfl rfl

/-- Every loader output — deduplicated truthy normalizer results — is
duplicate-free, and each element is a non-empty `.onion` hostname. -/
theorem dedup_extract_shape (raws : List String) :
    (((raws.filterMap extract_clean_onion).filter (fun u => u != "")).dedup).Nodup
    ∧ ∀ t ∈ ((raws.filterMap extract_clean_onion).filter (fun u => u != "")).dedup,
        t ≠ "" ∧ strEndsWith t ".onion" = true := by
  refine ⟨List.nodup_dedup _, ?_⟩
  intro t ht
  rw [List.mem_dedup] at ht
  obtain ⟨raw, _, hex⟩ := List.mem_filterMap.mp (List.mem_filter.mp ht).1
  exact extract_clean_onion_some_shape raw t hex

/-- Claim C9: each of the three ingestion loaders returns a duplicate-free
list of normalized targets, every element a non-empty hostname ending in
`.onion`. -/
theorem loaders_nodup_valid :
    (∀ lines : List String, (load_onions_from_txt lines).Nodup
      ∧ ∀ t ∈ load_onions_from_txt lines,
          t ≠ "" ∧ strEndsWith t ".onion" = true)
    ∧ (∀ rows : List (List String), (load_onions_from_csv rows).Nodup
      ∧ ∀ t ∈ load_onions_from_csv rows,
          t ≠ "" ∧ strEndsWith t ".onion" = true)
    ∧ (∀ column_values : List String,
        (load_onions_from_sqlite column_values).Nodup
      ∧ ∀ t ∈ load_onions_from_sqlite column_values,
          t ≠ "" ∧ strEndsWith t ".onion" = true) :=
  ⟨fun lines => dedup_extract_shape lines,
   fun rows => dedup_extract_shape rows.flatten,
   fun column_values => dedup_extract_shape column_values⟩

/-- Witness for the C9 theorem on concrete loader inputs. -/
theorem loaders_nodup_valid_witness :
    (load_onions_from_txt ["foo.onion", "bar", "foo.onion"]).Nodup
    ∧ ("foo.onion" ≠ "" ∧ strEndsWith "foo.onion" ".onion" = true)
    ∧ (load_onions_from_csv [["a.onion"], ["b"]]).Nodup
    ∧ (load_onions_from_sqlite ["c.onion"]).Nodup :=
  ⟨(loaders_nodup_valid.1 ["foo.onion", "bar", "foo.onion"]).1,
   (loaders_nodup_valid.1 ["foo.onion", "bar", "foo.onion"]).2
     "foo.onion" (by decide),
   (loaders_nodup_valid.2.1 [["a.onion"], ["b"]]).1,
   (loaders_nodup_valid.2.2 ["c.onion"]).1⟩

end OnionChecker
